import Mathlib

/-!
Shallow embedding of the `ffix` FFI utility crate (src/string.rs, src/array.rs,
src/error.rs) and verification of its specified properties.

Modelling conventions:
* A byte is a `Nat` (values above 255 never satisfy the UTF-8 validator).
* A C string buffer is the `List Nat` of bytes stored at its allocation,
  terminator byte included.
* A possibly-null pointer is an `Option` of the memory it points at; `none`
  is the NULL pointer.  A slot of a pointer array is likewise an `Option`:
  `none` is a null slot (the sentinel).
* Rust panics are modelled by an `Option` result (`none` = panic).
* Reading a slot past the array's end is undefined behaviour in the source;
  the model returns the null slot there, which is what the documented
  precondition (a sentinel is present within bounds) makes of it.
* Deallocations are counted explicitly where a claim speaks about them.
-/

/-- The error enum of src/error.rs. -/
inductive Error where
  | intoString
  | nulByte
  | null
  | utf8
deriving DecidableEq, Repr

abbrev Result (α : Type) := Except Error α

/-- A UTF-8 continuation byte: 0x80..=0xBF. -/
def isCont (b : Nat) : Bool := decide (0x80 ≤ b) && decide (b ≤ 0xBF)

/-- UTF-8 validity of a byte sequence, as checked by Rust's
`str::from_utf8` (the validator behind `CStr::to_str`). -/
def validUtf8 : List Nat → Bool
  | [] => true
  | b :: rest =>
    if b ≤ 0x7F then validUtf8 rest
    else if 0xC2 ≤ b ∧ b ≤ 0xDF then
      match rest with
      | c1 :: rest1 => isCont c1 && validUtf8 rest1
      | [] => false
    else if b = 0xE0 then
      match rest with
      | c1 :: c2 :: rest2 =>
        decide (0xA0 ≤ c1) && decide (c1 ≤ 0xBF) && isCont c2 && validUtf8 rest2
      | _ => false
    else if (0xE1 ≤ b ∧ b ≤ 0xEC) ∨ (0xEE ≤ b ∧ b ≤ 0xEF) then
      match rest with
      | c1 :: c2 :: rest2 => isCont c1 && isCont c2 && validUtf8 rest2
      | _ => false
    else if b = 0xED then
      match rest with
      | c1 :: c2 :: rest2 =>
        decide (0x80 ≤ c1) && decide (c1 ≤ 0x9F) && isCont c2 && validUtf8 rest2
      | _ => false
    else if b = 0xF0 then
      match rest with
      | c1 :: c2 :: c3 :: rest3 =>
        decide (0x90 ≤ c1) && decide (c1 ≤ 0xBF) && isCont c2 && isCont c3 &&
          validUtf8 rest3
      | _ => false
    else if 0xF1 ≤ b ∧ b ≤ 0xF3 then
      match rest with
      | c1 :: c2 :: c3 :: rest3 =>
        isCont c1 && isCont c2 && isCont c3 && validUtf8 rest3
      | _ => false
    else if b = 0xF4 then
      match rest with
      | c1 :: c2 :: c3 :: rest3 =>
        decide (0x80 ≤ c1) && decide (c1 ≤ 0x8F) && isCont c2 && isCont c3 &&
          validUtf8 rest3
      | _ => false
    else false

/-- `CStr::from_ptr` followed by `to_str().map(to_string)`: the bytes at the
pointer up to (excluding) the first zero byte, decoded as UTF-8.  A decoded
Rust `String` is identified with its UTF-8 byte sequence. -/
def cstrToString (buf : List Nat) : Except Unit (List Nat) :=
  let bytes := buf.takeWhile (· ≠ 0)
  if validUtf8 bytes then .ok bytes else .error ()

/-- `expose_string` (src/string.rs).  Returns the result together with the
list of foreign allocations (their sizes in bytes) the call performed:
`CString::new` rejects an interior nul before any `malloc` happens; on
success exactly one buffer of `len+1` bytes is allocated and filled with
the content followed by the zero terminator. -/
def expose_string (input : List Nat) : Result (List Nat) × List Nat :=
  if input.contains 0 then (.error .nulByte, [])
  else (.ok (input ++ [0]), [input.length + 1])

/-- The owning wrapper `StringArray` (src/string.rs).  `slots` is the memory
at the wrapper's non-null array pointer: one `Option` buffer per slot,
`none` being a null slot. -/
structure StringArray where
  slots : List (Option (List Nat))
  should_drop : Bool
  has_dropped : Bool
deriving DecidableEq, Repr

/-- The slot-filling loop of `StringArray::new`: one `expose_string` per
item, propagating the first error. -/
def buildSlots : List (List Nat) → Result (List (Option (List Nat)))
  | [] => .ok []
  | item :: rest =>
    match (expose_string item).1 with
    | .error e => .error e
    | .ok buf =>
      match buildSlots rest with
      | .error e => .error e
      | .ok tail => .ok (some buf :: tail)

/-- `StringArray::new` (src/string.rs): allocates `count+1` zero-initialised
slots (so the final slot stays null), fills slots `0..count` in order via
`expose_string`, and returns the wrapper with `should_drop = true`,
`has_dropped = false`. -/
def StringArray.new (items : List (List Nat)) : Result StringArray :=
  match buildSlots items with
  | .error e => .error e
  | .ok filled => .ok ⟨filled ++ [none], true, false⟩

/-- `StringArray::into_raw`: flips `should_drop` off and hands out the raw
pointer; the consumed wrapper itself is then dropped at the end of the
call.  Returns the pointed-at memory and that leftover wrapper. -/
def StringArray.into_raw (a : StringArray) : List (Option (List Nat)) × StringArray :=
  let a1 : StringArray := { a with should_drop := false }
  (a1.slots, a1)

/-- `StringArray::from_raw` (src/string.rs): panics (`none`) on a NULL
pointer, otherwise wraps the memory with the given `should_drop` flag and
`has_dropped = false`. -/
def StringArray.from_raw (ptr : Option (List (Option (List Nat))))
    (should_drop : Bool) : Option StringArray :=
  match ptr with
  | none => none
  | some mem => some ⟨mem, should_drop, false⟩

/-- `StringArray::free`: deallocates the slot array only when
`should_drop && !has_dropped`, marking `has_dropped`.  The `Nat` component
counts the deallocations this call performed (0 or 1). -/
def StringArray.free (a : StringArray) : StringArray × Nat :=
  if a.should_drop && !a.has_dropped then
    ({ a with has_dropped := true }, 1)
  else (a, 0)

/-- `n` consecutive release requests (explicit `free` calls and scope-end
drops both run `StringArray::free`), with the total deallocation count. -/
def runFrees : StringArray → Nat → StringArray × Nat
  | a, 0 => (a, 0)
  | a, n + 1 =>
    let s1 := a.free
    let s2 := runFrees s1.1 n
    (s2.1, s1.2 + s2.2)

/-- The consuming iterator `StringArrayIter` (src/string.rs). -/
structure StringArrayIter where
  array : StringArray
  current_index : Nat
deriving DecidableEq, Repr

/-- `StringArray::into_iter`. -/
def StringArray.intoIter (a : StringArray) : StringArrayIter := ⟨a, 0⟩

/-- Reading slot `i` of the array memory; a null slot (or a read past the
allocation, which the null-sentinel precondition rules out) is `none`. -/
def slotAt (slots : List (Option (List Nat))) (i : Nat) : Option (List Nat) :=
  slots.getD i none

/-- One `StringArrayIter::next` step: a null slot ends the sequence without
moving the index; a non-null slot advances the index by one and yields the
slot's bytes decoded as UTF-8 (`Ok` or a `Utf8` error). -/
def StringArrayIter.next (it : StringArrayIter) :
    Option (Result (List Nat)) × StringArrayIter :=
  match slotAt it.array.slots it.current_index with
  | none => (none, it)
  | some buf =>
    let it1 : StringArrayIter := { it with current_index := it.current_index + 1 }
    match cstrToString buf with
    | .ok s => (some (.ok s), it1)
    | .error _ => (some (.error Error.utf8), it1)

/-- Consuming iteration: repeated `next` until it yields `None` (or fuel
runs out; `slots.length` fuel always suffices). -/
def StringArrayIter.run (it : StringArrayIter) : Nat → List (Result (List Nat))
  | 0 => []
  | fuel + 1 =>
    match it.next with
    | (none, _) => []
    | (some r, it1) => r :: it1.run fuel

/-- The non-owning `ArrayReader` (src/array.rs): a non-null pointer to a
null-terminated array of `T` pointers.  `slots` is the pointed-at memory;
element pointers are abstract non-null values of type `α`, a null slot is
`none`. -/
structure ArrayReader (α : Type) where
  slots : List (Option α)
deriving DecidableEq, Repr

/-- `ArrayReader::new` (src/array.rs): panics (`none`) on a NULL pointer. -/
def ArrayReader.new (ptr : Option (List (Option α))) : Option (ArrayReader α) :=
  match ptr with
  | none => none
  | some mem => some ⟨mem⟩

/-- `ArrayReader::get`: the element at `index` when it is non-null, else
`None`; no bounds check beyond the null sentinel. -/
def ArrayReader.get (r : ArrayReader α) (index : Nat) : Option α :=
  r.slots.getD index none

/-- The iterator `ArrayIter` (src/array.rs). -/
structure ArrayIter (α : Type) where
  reader : ArrayReader α
  current_index : Nat
deriving DecidableEq, Repr

/-- `ArrayReader::into_iter`. -/
def ArrayReader.intoIter (r : ArrayReader α) : ArrayIter α := ⟨r, 0⟩

/-- One `ArrayIter::next` step: reads `get(current_index)` and increments
the index unconditionally. -/
def ArrayIter.next (it : ArrayIter α) : Option α × ArrayIter α :=
  (it.reader.get it.current_index, { it with current_index := it.current_index + 1 })

/-- Consuming iteration over an `ArrayIter`: collects items until `next`
returns `None` (or fuel runs out; `slots.length` fuel always suffices). -/
def ArrayIter.run (it : ArrayIter α) : Nat → List α
  | 0 => []
  | fuel + 1 =>
    match it.next with
    | (none, _) => []
    | (some x, it1) => x :: it1.run fuel

/-- `StringReader` (src/string.rs).  `cap` is the guaranteed capacity of the
`Vec` created by `Vec::with_capacity`; `ptr_null` records whether
`buf.as_mut_ptr()` is NULL (a Rust `Vec`'s pointer never is); `mem` is the
byte content observable through that pointer at consumption time. -/
structure StringReader where
  cap : Nat
  ptr_null : Bool
  mem : List Nat
deriving DecidableEq, Repr

/-- `StringReader::new(max_length)`: `Vec::with_capacity(max_length)`, whose
guaranteed capacity is exactly the requested `max_length` and whose data
pointer is non-null (dangling but non-null even for capacity 0); the buffer
content is uninitialised. -/
def StringReader.new (max_length : Nat) : StringReader :=
  { cap := max_length, ptr_null := false, mem := [] }

/-- The foreign writer of the spec's write phase: code on the other side of
the boundary stores a byte sequence through the pointer returned by
`get_target`, leaving pointer and capacity untouched. -/
def StringReader.foreignWrite (r : StringReader) (bytes : List Nat) : StringReader :=
  { r with mem := bytes }

/-- Events on the reader's construction-time buffer allocation during a
consuming call: `forget` is `mem::forget(self.buf)` (destructor suppressed,
nothing released), `free` is a deallocation of that buffer. -/
inductive MemEvent where
  | forget
  | free
deriving DecidableEq, Repr

/-- `StringReader::into_string_opt` (src/string.rs): takes the raw pointer,
forgets the `Vec`, returns `Ok(None)` on a NULL pointer and otherwise the
buffer's C string decoded as UTF-8.  The event list records what happened
to the buffer allocation: the `Vec` is forgotten and no code path ever
deallocates it (`CStr::from_ptr(...).to_str().map(to_string)` only borrows
and copies). -/
def StringReader.into_string_opt (r : StringReader) :
    Result (Option (List Nat)) × List MemEvent :=
  if r.ptr_null then (.ok none, [.forget])
  else
    match cstrToString r.mem with
    | .ok s => (.ok (some s), [.forget])
    | .error _ => (.error .utf8, [.forget])

/-- `StringReader::into_string`: `into_string_opt()?.ok_or(Null)`. -/
def StringReader.into_string (r : StringReader) : Result (List Nat) × List MemEvent :=
  let s := r.into_string_opt
  match s.1 with
  | .error e => (.error e, s.2)
  | .ok none => (.error .null, s.2)
  | .ok (some x) => (.ok x, s.2)

example : (expose_string [97, 0, 98]).1 = .error .nulByte := rfl

example : (expose_string [97, 98]).1 = .ok [97, 98, 0] := rfl

example :
    (StringArray.new [[97], [98]]).map
      (fun a => a.intoIter.run a.slots.length) =
    .ok [.ok [97], .ok [98]] := rfl

/-! ### Helper lemmas -/

/-- The full output of consuming a `StringArrayIter` positioned at the head
of the given remaining slots. -/
def iterAll : List (Option (List Nat)) → List (Result (List Nat))
  | [] => []
  | none :: _ => []
  | some buf :: rest =>
    (match cstrToString buf with
      | .ok s => Except.ok s
      | .error _ => Except.error Error.utf8) :: iterAll rest

/-- The full output of consuming an `ArrayIter` positioned at the head of
the given remaining slots. -/
def arrIterAll {α : Type} : List (Option α) → List α
  | [] => []
  | none :: _ => []
  | some x :: rest => x :: arrIterAll rest

theorem takeWhile_exposed (s : List Nat) (h : s.contains 0 = false) :
    (s ++ [0]).takeWhile (· ≠ 0) = s := by
  induction s with
  | nil => rfl
  | cons b t ih =>
    rw [List.contains_cons, Bool.or_eq_false_iff] at h
    have hb : b ≠ 0 := by
      intro hb0
      rw [hb0] at h
      simp at h
    have ih2 := ih h.2
    simp only [List.cons_append, List.takeWhile_cons, ne_eq, decide_not] at ih2 ⊢
    simp [hb, ih2]

theorem cstr_exposed (s : List Nat) (h0 : s.contains 0 = false)
    (hv : validUtf8 s = true) : cstrToString (s ++ [0]) = .ok s := by
  have ht := takeWhile_exposed s h0
  simp only [cstrToString]
  rw [ht, hv]
  rfl

theorem slotAt_of_lt (slots : List (Option (List Nat))) (i : Nat)
    (h : i < slots.length) : slotAt slots i = slots[i] := by
  simp [slotAt, List.getD_eq_getElem?_getD, List.getElem?_eq_getElem h]

theorem slotAt_of_le (slots : List (Option (List Nat))) (i : Nat)
    (h : slots.length ≤ i) : slotAt slots i = none := by
  simp [slotAt, List.getD_eq_getElem?_getD, List.getElem?_eq_none h]

theorem stringArrayIter_run_drop (sd hd : Bool) :
    ∀ (fuel i : Nat) (slots : List (Option (List Nat))),
      slots.length - i ≤ fuel →
      StringArrayIter.run ⟨⟨slots, sd, hd⟩, i⟩ fuel = iterAll (slots.drop i) := by
  intro fuel
  induction fuel with
  | zero =>
    intro i slots h
    have hle : slots.length ≤ i := by omega
    rw [List.drop_eq_nil_of_le hle]
    rfl
  | succ fuel ih =>
    intro i slots h
    by_cases hi : i < slots.length
    · have hdrop := List.drop_eq_getElem_cons hi
      cases hx : slots[i] with
      | none =>
        have hslot : slotAt slots i = none := by rw [slotAt_of_lt slots i hi, hx]
        rw [hdrop, hx]
        simp [StringArrayIter.run, StringArrayIter.next, hslot, iterAll]
      | some buf =>
        have hslot : slotAt slots i = some buf := by rw [slotAt_of_lt slots i hi, hx]
        rw [hdrop, hx]
        have hrec := ih (i + 1) slots (by omega)
        cases hc : cstrToString buf with
        | ok s =>
          simp [StringArrayIter.run, StringArrayIter.next, hslot, hc, iterAll, hrec]
        | error e =>
          simp [StringArrayIter.run, StringArrayIter.next, hslot, hc, iterAll, hrec]
    · have hle : slots.length ≤ i := by omega
      have hslot : slotAt slots i = none := slotAt_of_le slots i hle
      rw [List.drop_eq_nil_of_le hle]
      simp [StringArrayIter.run, StringArrayIter.next, hslot, iterAll]

theorem arrayIter_run_drop {α : Type} :
    ∀ (fuel i : Nat) (slots : List (Option α)),
      slots.length - i ≤ fuel →
      ArrayIter.run ⟨⟨slots⟩, i⟩ fuel = arrIterAll (slots.drop i) := by
  intro fuel
  induction fuel with
  | zero =>
    intro i slots h
    have hle : slots.length ≤ i := by omega
    rw [List.drop_eq_nil_of_le hle]
    rfl
  | succ fuel ih =>
    intro i slots h
    by_cases hi : i < slots.length
    · have hdrop := List.drop_eq_getElem_cons hi
      cases hx : slots[i] with
      | none =>
        have hslot : ArrayReader.get ⟨slots⟩ i = none := by
          simp [ArrayReader.get, List.getD_eq_getElem?_getD, List.getElem?_eq_getElem hi, hx]
        rw [hdrop, hx]
        simp [ArrayIter.run, ArrayIter.next, hslot, arrIterAll]
      | some x =>
        have hslot : ArrayReader.get ⟨slots⟩ i = some x := by
          simp [ArrayReader.get, List.getD_eq_getElem?_getD, List.getElem?_eq_getElem hi, hx]
        rw [hdrop, hx]
        have hrec := ih (i + 1) slots (by omega)
        simp [ArrayIter.run, ArrayIter.next, hslot, arrIterAll, hrec]
    · have hle : slots.length ≤ i := by omega
      have hslot : ArrayReader.get ⟨slots⟩ i = none := by
        simp [ArrayReader.get, List.getD_eq_getElem?_getD, List.getElem?_eq_none hle]
      rw [List.drop_eq_nil_of_le hle]
      simp [ArrayIter.run, ArrayIter.next, hslot, arrIterAll]

theorem buildSlots_ok (items : List (List Nat))
    (hz : ∀ s ∈ items, s.contains 0 = false) :
    buildSlots items = .ok (items.map (fun s => some (s ++ [0]))) := by
  induction items with
  | nil => rfl
  | cons s t ih =>
    have hs : (0 : Nat) ∉ s := by simpa using hz s (by simp)
    have ht := ih (fun x hx => hz x (by simp [hx]))
    simp [buildSlots, expose_string, hs, ht]

theorem iterAll_exposed (items : List (List Nat))
    (hz : ∀ s ∈ items, s.contains 0 = false)
    (hv : ∀ s ∈ items, validUtf8 s = true) :
    iterAll (items.map (fun s => some (s ++ [0])) ++ [none]) = items.map Except.ok := by
  induction items with
  | nil => rfl
  | cons s t ih =>
    have h1 := cstr_exposed s (hz s (by simp)) (hv s (by simp))
    have ht := ih (fun x hx => hz x (by simp [hx])) (fun x hx => hv x (by simp [hx]))
    simp [iterAll, h1, ht]

/-! ### Claim theorems -/

/-- C1: for every input sequence of strings (UTF-8 byte sequences) with no
interior zero byte, `StringArray::new` succeeds and consuming iteration
yields exactly the input strings, each wrapped in `Ok`, in the same order;
the same holds when `into_raw` and then `from_raw(ptr, true)` are
interposed between construction and iteration. -/
theorem stringArray_roundtrip (items : List (List Nat))
    (hz : ∀ s ∈ items, s.contains 0 = false)
    (hv : ∀ s ∈ items, validUtf8 s = true) :
    ∃ a b : StringArray,
      StringArray.new items = .ok a ∧
      a.intoIter.run a.slots.length = items.map Except.ok ∧
      StringArray.from_raw (some a.into_raw.1) true = some b ∧
      b.intoIter.run b.slots.length = items.map Except.ok := by
  have hb := buildSlots_ok items hz
  set slots : List (Option (List Nat)) :=
    items.map (fun s => some (s ++ [0])) ++ [none] with hslots
  have hrun : ∀ sd hd : Bool,
      StringArrayIter.run ⟨⟨slots, sd, hd⟩, 0⟩ slots.length = items.map Except.ok := by
    intro sd hd
    rw [stringArrayIter_run_drop sd hd slots.length 0 slots (by omega)]
    rw [List.drop_zero]
    exact iterAll_exposed items hz hv
  refine ⟨⟨slots, true, false⟩, ⟨slots, true, false⟩, ?_, ?_, ?_, ?_⟩
  · simp [StringArray.new, hb]
  · exact hrun true false
  · rfl
  · exact hrun true false

/-- C1 witness: the round-trip at the concrete input `["a", "b", "c"]`. -/
theorem stringArray_roundtrip_witness :
    ∃ a b : StringArray,
      StringArray.new [[97], [98], [99]] = .ok a ∧
      a.intoIter.run a.slots.length = [[97], [98], [99]].map Except.ok ∧
      StringArray.from_raw (some a.into_raw.1) true = some b ∧
      b.intoIter.run b.slots.length = [[97], [98], [99]].map Except.ok :=
  stringArray_roundtrip [[97], [98], [99]] (by decide) (by decide)

theorem StringArray.free_noop (a : StringArray)
    (h : a.should_drop = false ∨ a.has_dropped = true) : a.free = (a, 0) := by
  unfold StringArray.free
  rcases h with h | h <;> simp [h]

theorem runFrees_noop (a : StringArray)
    (h : a.should_drop = false ∨ a.has_dropped = true) :
    ∀ n, runFrees a n = (a, 0) := by
  intro n
  induction n with
  | zero => rfl
  | succ n ih => simp [runFrees, StringArray.free_noop a h, ih]

/-- C2: across any sequence of release requests (`free` calls and scope-end
drops), a wrapper with `should_drop = true` and `has_dropped = false`
deallocates the slot array exactly once (setting `has_dropped`), every
later request being a no-op; after `into_raw`, or after
`from_raw(ptr, false)`, any number of releases deallocates nothing. -/
theorem stringArray_dealloc_once (a : StringArray) :
    (a.should_drop = true → a.has_dropped = false → ∀ n, 1 ≤ n →
      (runFrees a n).2 = 1 ∧ (runFrees a n).1.has_dropped = true) ∧
    (∀ n, (runFrees a.into_raw.2 n).2 = 0) ∧
    (∀ (mem : List (Option (List Nat))) (n : Nat),
      (StringArray.from_raw (some mem) false).map (fun b => (runFrees b n).2) = some 0) := by
  refine ⟨?_, ?_, ?_⟩
  · intro hsd hhd n hn
    obtain ⟨m, rfl⟩ : ∃ m, n = m + 1 := ⟨n - 1, by omega⟩
    have hfree : a.free = ({ a with has_dropped := true }, 1) := by
      simp [StringArray.free, hsd, hhd]
    have hrest := runFrees_noop { a with has_dropped := true } (Or.inr rfl) m
    simp [runFrees, hfree, hrest]
  · intro n
    have h := runFrees_noop a.into_raw.2 (Or.inl rfl) n
    simp [h]
  · intro mem n
    have h := runFrees_noop ⟨mem, false, false⟩ (Or.inl rfl) n
    simp [StringArray.from_raw, h]

/-- C2 witness: a fresh owning wrapper released three times deallocates
exactly once and ends with `has_dropped = true`. -/
theorem stringArray_dealloc_once_witness :
    (runFrees ⟨[none], true, false⟩ 3).2 = 1 ∧
    (runFrees ⟨[none], true, false⟩ 3).1.has_dropped = true :=
  (stringArray_dealloc_once ⟨[none], true, false⟩).1 rfl rfl 3 (by decide)

theorem arrIterAll_exposed {α : Type} (ptrs : List α) :
    arrIterAll (ptrs.map some ++ [none]) = ptrs := by
  induction ptrs with
  | nil => rfl
  | cons x t ih => simp [arrIterAll, ih]

/-- C3: an `ArrayReader` over `n` non-null element pointers followed by a
null sentinel, iterated from index 0 (each step advancing the index by
one), yields exactly those `n` pointers in order and produces nothing
further once the null slot is reached, for any sufficient fuel. -/
theorem arrayReader_iterates_all {α : Type} (ptrs : List α) (fuel : Nat)
    (hf : ptrs.length < fuel) :
    (ArrayReader.intoIter ⟨ptrs.map some ++ [none]⟩).current_index = 0 ∧
    (∀ it : ArrayIter α, it.next.2.current_index = it.current_index + 1) ∧
    ArrayIter.run (ArrayReader.intoIter ⟨ptrs.map some ++ [none]⟩) fuel = ptrs := by
  refine ⟨rfl, fun it => rfl, ?_⟩
  have h : (ptrs.map some ++ [none] : List (Option α)).length - 0 ≤ fuel := by
    simp
    omega
  rw [ArrayReader.intoIter, arrayIter_run_drop fuel 0 (ptrs.map some ++ [none]) h]
  rw [List.drop_zero]
  exact arrIterAll_exposed ptrs

/-- C3 witness: three pointers and the sentinel, iterated with ample fuel. -/
theorem arrayReader_iterates_all_witness :
    (ArrayReader.intoIter ⟨[10, 20, 30].map some ++ [none]⟩).current_index = 0 ∧
    (∀ it : ArrayIter Nat, it.next.2.current_index = it.current_index + 1) ∧
    ArrayIter.run (ArrayReader.intoIter ⟨[10, 20, 30].map some ++ [none]⟩) 9 = [10, 20, 30] :=
  arrayReader_iterates_all [10, 20, 30] 9 (by decide)

/-- C4: a `StringArrayIter` step at a non-null slot whose C string bytes
are not valid UTF-8 yields a `Utf8` error for that slot and advances the
index by one (so the next step examines the following slot), while a step
at a null slot yields nothing and leaves the index unchanged. -/
theorem stringArrayIter_invalid_utf8_step (a : StringArray) (i : Nat)
    (buf : List Nat) (hs : slotAt a.slots i = some buf)
    (hv : validUtf8 (buf.takeWhile (· ≠ 0)) = false) :
    StringArrayIter.next ⟨a, i⟩ = (some (.error Error.utf8), ⟨a, i + 1⟩) ∧
    (∀ j, slotAt a.slots j = none →
      StringArrayIter.next ⟨a, j⟩ = (none, ⟨a, j⟩)) := by
  constructor
  · have hc : cstrToString buf = .error () := by
      simp only [cstrToString]
      rw [hv]
      rfl
    simp [StringArrayIter.next, hs, hc]
  · intro j hj
    simp [StringArrayIter.next, hj]

/-- C4 witness: slot 1 holds the invalid byte 0xFF; the step yields a
`Utf8` error and moves to slot 2, and the null slot 3 yields nothing. -/
theorem stringArrayIter_invalid_utf8_step_witness :
    StringArrayIter.next ⟨⟨[some [97, 0], some [255, 0], some [98, 0], none], true, false⟩, 1⟩ =
      (some (.error Error.utf8),
        ⟨⟨[some [97, 0], some [255, 0], some [98, 0], none], true, false⟩, 2⟩) ∧
    (∀ j, slotAt [some [97, 0], some [255, 0], some [98, 0], none] j = none →
      StringArrayIter.next ⟨⟨[some [97, 0], some [255, 0], some [98, 0], none], true, false⟩, j⟩ =
        (none, ⟨⟨[some [97, 0], some [255, 0], some [98, 0], none], true, false⟩, j⟩)) :=
  stringArrayIter_invalid_utf8_step
    ⟨[some [97, 0], some [255, 0], some [98, 0], none], true, false⟩ 1 [255, 0]
    (by decide) (by decide)

/-- C5 (code evaluation at the failing input): `StringReader::new(n)` calls
`Vec::with_capacity(n)`, whose guaranteed capacity is `n`, not `n + 1`: at
`n = 4` (the library's own test input, the 4-byte string `test` plus its
terminator) the guaranteed capacity is 4, one byte short of the claimed
`n + 1`. -/
theorem stringReader_new_capacity :
    (∀ n, (StringReader.new n).cap = n) ∧
    (StringReader.new 4).cap = 4 ∧ ¬(4 + 1 ≤ (StringReader.new 4).cap) :=
  ⟨fun n => rfl, rfl, by decide⟩

/-- C6: `into_string` returns the decoded string when the buffer pointer is
non-null and the bytes up to the terminator are valid UTF-8, fails with
`Null` exactly on a null buffer pointer, and fails with a `Utf8` error on
invalid bytes; `into_string_opt` behaves identically except that a null
pointer yields `Ok(None)` instead of `Null`. -/
theorem stringReader_into_string_spec (r : StringReader) :
    (r.ptr_null = false → validUtf8 (r.mem.takeWhile (· ≠ 0)) = true →
      r.into_string.1 = .ok (r.mem.takeWhile (· ≠ 0)) ∧
      r.into_string_opt.1 = .ok (some (r.mem.takeWhile (· ≠ 0)))) ∧
    (r.ptr_null = true →
      r.into_string.1 = .error Error.null ∧ r.into_string_opt.1 = .ok none) ∧
    (r.ptr_null = false → validUtf8 (r.mem.takeWhile (· ≠ 0)) = false →
      r.into_string.1 = .error Error.utf8 ∧ r.into_string_opt.1 = .error Error.utf8) := by
  refine ⟨?_, ?_, ?_⟩
  · intro hp hv
    have hc : cstrToString r.mem = .ok (r.mem.takeWhile (· ≠ 0)) := by
      simp only [cstrToString]
      rw [hv]
      rfl
    constructor <;>
      simp [StringReader.into_string, StringReader.into_string_opt, hp, hc]
  · intro hp
    constructor <;>
      simp [StringReader.into_string, StringReader.into_string_opt, hp]
  · intro hp hv
    have hc : cstrToString r.mem = .error () := by
      simp only [cstrToString]
      rw [hv]
      rfl
    constructor <;>
      simp [StringReader.into_string, StringReader.into_string_opt, hp, hc]

/-- C6 witness: the three cases at concrete readers: a valid buffer
holding `test`, a null-pointer reader, and a buffer holding the invalid
byte 0xFF. -/
theorem stringReader_into_string_spec_witness :
    ((StringReader.mk 4 false [116, 101, 115, 116, 0]).into_string.1 =
        .ok [116, 101, 115, 116] ∧
      (StringReader.mk 4 false [116, 101, 115, 116, 0]).into_string_opt.1 =
        .ok (some [116, 101, 115, 116])) ∧
    ((StringReader.mk 4 true []).into_string.1 = .error Error.null ∧
      (StringReader.mk 4 true []).into_string_opt.1 = .ok none) ∧
    ((StringReader.mk 1 false [255, 0]).into_string.1 = .error Error.utf8 ∧
      (StringReader.mk 1 false [255, 0]).into_string_opt.1 = .error Error.utf8) :=
  ⟨(stringReader_into_string_spec (StringReader.mk 4 false [116, 101, 115, 116, 0])).1
      rfl (by decide),
    (stringReader_into_string_spec (StringReader.mk 4 true [])).2.1 rfl,
    (stringReader_into_string_spec (StringReader.mk 1 false [255, 0])).2.2
      rfl (by decide)⟩

/-- C7: `expose_string` fails with `NulByte` exactly when the input holds
an interior zero byte, allocating nothing in that case; on success it
allocates exactly one buffer of `len + 1` bytes holding the content
followed by the zero terminator. -/
theorem expose_string_spec (input : List Nat) :
    ((expose_string input).1 = .error Error.nulByte ↔ input.contains 0 = true) ∧
    (input.contains 0 = true → (expose_string input).2 = []) ∧
    (input.contains 0 = false →
      (expose_string input).1 = .ok (input ++ [0]) ∧
      (input ++ [0]).length = input.length + 1 ∧
      (input ++ [0]).getLast? = some 0 ∧
      (expose_string input).2 = [input.length + 1]) := by
  by_cases hm : (0 : Nat) ∈ input
  · have hc : input.contains 0 = true := by simpa using hm
    refine ⟨?_, ?_, ?_⟩
    · simp [expose_string, hm, hc]
    · intro _
      simp [expose_string, hm]
    · intro hfalse
      rw [hc] at hfalse
      exact absurd hfalse (by simp)
  · have hc : input.contains 0 = false := by simpa using hm
    refine ⟨?_, ?_, ?_⟩
    · simp [expose_string, hm, hc]
    · intro htrue
      rw [hc] at htrue
      exact absurd htrue (by simp)
    · intro _
      refine ⟨?_, by simp, by simp, ?_⟩ <;> simp [expose_string, hm]

/-- C7 witness: `expose_string` at the interior-nul input `[97, 0, 98]`
and at the clean input `[97, 98]`. -/
theorem expose_string_spec_witness :
    ((expose_string [97, 0, 98]).1 = .error Error.nulByte ↔
      ([97, 0, 98] : List Nat).contains 0 = true) ∧
    (expose_string [97, 0, 98]).2 = [] ∧
    ((expose_string [97, 98]).1 = .ok ([97, 98] ++ [0]) ∧
      (([97, 98] : List Nat) ++ [0]).length = 2 + 1 ∧
      (([97, 98] : List Nat) ++ [0]).getLast? = some 0 ∧
      (expose_string [97, 98]).2 = [2 + 1]) :=
  ⟨(expose_string_spec [97, 0, 98]).1,
    (expose_string_spec [97, 0, 98]).2.1 (by decide),
    (expose_string_spec [97, 98]).2.2 (by decide)⟩

/-- C8: constructing an `ArrayReader` or reconstructing a `StringArray`
from a NULL pointer panics (no value is returned), while a non-null
pointer always yields a wrapper built from that pointer. -/
theorem null_pointer_fails_fast :
    (∀ b : Bool, StringArray.from_raw none b = none) ∧
    (∀ (α : Type), ArrayReader.new (α := α) none = none) ∧
    (∀ (mem : List (Option (List Nat))) (b : Bool),
      StringArray.from_raw (some mem) b = some ⟨mem, b, false⟩) ∧
    (∀ (α : Type) (mem : List (Option α)), ArrayReader.new (some mem) = some ⟨mem⟩) :=
  ⟨fun _ => rfl, fun _ => rfl, fun _ _ => rfl, fun _ _ => rfl⟩

/-- C9 (code evaluation): consuming a `StringReader` performs
`mem::forget` on the buffer and never deallocates it — the event trace of
both consuming methods contains no `free` event, on every reader. -/
theorem stringReader_consume_never_frees (r : StringReader) :
    r.into_string_opt.2 = [MemEvent.forget] ∧
    r.into_string.2 = [MemEvent.forget] ∧
    r.into_string_opt.2.count MemEvent.free = 0 ∧
    r.into_string.2.count MemEvent.free = 0 := by
  have h1 : r.into_string_opt.2 = [MemEvent.forget] := by
    unfold StringReader.into_string_opt
    cases hp : r.ptr_null with
    | false => cases hc : cstrToString r.mem <;> simp [hp, hc]
    | true => simp [hp]
  have h2 : r.into_string.2 = [MemEvent.forget] := by
    unfold StringReader.into_string
    cases h : r.into_string_opt.1 with
    | error e => simp [h, h1]
    | ok o => cases o <;> simp [h, h1]
  refine ⟨h1, h2, ?_, ?_⟩
  · rw [h1]
    rfl
  · rw [h2]
    rfl

/-- C10: a reader from the public constructor has a non-null buffer
pointer for every capacity (a Rust `Vec`'s pointer is never null), so
regardless of what the foreign writer stored, `into_string_opt` never
returns `Ok(None)` and `into_string` never fails with `Null`. -/
theorem stringReader_ptr_never_null (n : Nat) (bytes : List Nat) :
    ((StringReader.new n).foreignWrite bytes).ptr_null = false ∧
    ((StringReader.new n).foreignWrite bytes).into_string_opt.1 ≠ .ok none ∧
    ((StringReader.new n).foreignWrite bytes).into_string.1 ≠ .error Error.null := by
  refine ⟨rfl, ?_, ?_⟩ <;>
    cases hc : cstrToString bytes <;>
      simp [StringReader.into_string, StringReader.into_string_opt,
        StringReader.new, StringReader.foreignWrite, hc]
